import Mathlib

/-!
Formal model of the fxhash token-analysis scripts.

The repository computes token-holder balances and net trading volume for
ERC-20-style tokens from streams of transfer records.  This file embeds the
computational core of those scripts — transaction grouping, the per-transaction
net-transfer calculation, the USD-pricing step, the reference-volume validation
bands, and the holder balance fold — as executable Lean definitions over exact
rational arithmetic (Python floats are modelled as `ℚ`, the idealized
arithmetic the scripts' own comments assume), and proves the behavioural
properties stated in the specification.
-/

namespace Fxhash

/-- Python's `addr.lower()`: addresses are canonicalized by lower-casing before
being used as map keys (`temp_net_methods.py`, `calculate_net_transfers`). -/
def lowerAddr (s : String) : String := ⟨s.data.map Char.toLower⟩

/-- One transfer record as consumed by the analyzers.  The explorer returns the
`value` field as a decimal string; `some n` models a numeric string holding the
raw smallest-unit integer amount `n` (a record whose `value` key is absent
defaults to `"0"`, i.e. `some 0`), and `none` models a non-numeric string,
which `float(...)` would reject with `ValueError`.  A record with a missing
transaction hash carries `hash = ""` (the `transfer.get('hash', '')`
default). -/
structure Transfer where
  hash : String
  fromAddr : String
  toAddr : String
  value : Option Nat
  timeStamp : Nat
deriving DecidableEq, Repr

/-- Per-token configuration; only `decimals` enters any computation
(`TokenConfig` in `historic_volume_analyzer_final.py` / `net_volume_analyzer.py`). -/
structure TokenConfig where
  decimals : Nat
deriving DecidableEq, Repr

/-- `TokenConfig.format_amount`: convert a raw token amount to display units,
`float(raw_amount) / (10 ** self.decimals)`, returning `0.0` when the raw
string is non-numeric (the `except (ValueError, TypeError)` branch). -/
def TokenConfig.format_amount (token : TokenConfig) (raw : Option Nat) : ℚ :=
  match raw with
  | some n => (n : ℚ) / (10 : ℚ) ^ token.decimals
  | none => 0

/-- `group_transfers_by_tx` (`temp_net_methods.py` lines 2-10) builds a dict
mapping each transaction hash to the sub-list, in input order, of the transfers
carrying that hash; this is the list the dict holds at key `h`. -/
def group_transfers_by_tx (transfers : List Transfer) (h : String) : List Transfer :=
  transfers.filter (fun t => t.hash == h)

/-- The key set of the grouping dict: the distinct transaction hashes present
in the input. -/
def txKeys (transfers : List Transfer) : Finset String :=
  (transfers.map (fun t => t.hash)).toFinset

/-- The contribution of one record to one address's accumulated flow inside a
transaction: `address_flows[from_addr] -= amount; address_flows[to_addr] +=
amount`, with zero-amount records skipped (`if amount == 0: continue`). -/
def flowDelta (token : TokenConfig) (t : Transfer) (a : String) : ℚ :=
  let amount := token.format_amount t.value
  if amount = 0 then 0
  else (if lowerAddr t.toAddr = a then amount else 0) -
    (if lowerAddr t.fromAddr = a then amount else 0)

/-- The final value of `address_flows[a]` after the accumulation loop of
`calculate_net_transfers` has run over all transfers of one transaction. -/
def addressFlow (token : TokenConfig) (transfers : List Transfer) (a : String) : ℚ :=
  (transfers.map (fun t => flowDelta token t a)).sum

/-- The key set of the `address_flows` dict: the lower-cased `from`/`to`
addresses of every record whose converted amount is nonzero (zero-amount
records `continue` before the keys are created). -/
def trackedAddresses (token : TokenConfig) (transfers : List Transfer) : Finset String :=
  (transfers.filter (fun t => token.format_amount t.value != 0)).foldr
    (fun t s => insert (lowerAddr t.fromAddr) (insert (lowerAddr t.toAddr) s)) ∅

/-- The addresses whose accumulated flow survives the epsilon filter
`[abs(flow) for flow in address_flows.values() if abs(flow) > 0.001]` —
the per-transaction set of net-active participants. -/
def netActiveAddresses (token : TokenConfig) (transfers : List Transfer) : Finset String :=
  (trackedAddresses token transfers).filter
    (fun a => (1 : ℚ)/1000 < |addressFlow token transfers a|)

/-- `calculate_net_transfers` (`temp_net_methods.py` lines 12-44): net economic
transfer volume of one transaction — sum of the absolute surviving per-address
net flows, divided by two, with early `0.0` returns for an empty group and for
an empty surviving-flow list. -/
def calculate_net_transfers (token : TokenConfig) (transfers_in_tx : List Transfer) : ℚ :=
  if transfers_in_tx = [] then 0
  else if netActiveAddresses token transfers_in_tx = ∅ then 0
  else (∑ a ∈ netActiveAddresses token transfers_in_tx,
    |addressFlow token transfers_in_tx a|) / 2

/-- The `net_volume` accumulation loop of `calculate_volume_with_net_transfers`
(`temp_net_methods.py` lines 61-70): sum of the per-transaction net volumes
over the grouping dict's entries (rational addition is commutative and
associative, so the sum over the finite key set equals the loop's running
total). -/
def total_net_volume (token : TokenConfig) (transfers : List Transfer) : ℚ :=
  ∑ h ∈ txKeys transfers, calculate_net_transfers token (group_transfers_by_tx transfers h)

/-- One decoded on-chain `Transfer` event as stored in `transfer_data.pkl` and
replayed by `analyze_holders` (`analyze_holders.py` lines 25-27): a
`(block_number, timestamp, from, to, value)` tuple whose `value` is already in
display units. -/
structure ChainTransfer where
  blockNum : Nat
  timestamp : Nat
  fromAddr : String
  toAddr : String
  value : ℚ
deriving DecidableEq, Repr

/-- One iteration of the balance loop of `analyze_holders`
(`analyze_holders.py` lines 25-28) and of `get_all_current_holders`
(`all_holdersv2.py` lines 55-63): `balances[from_addr] -= value` followed by
`balances[to_addr] += value` on a `defaultdict(float)`. -/
def applyTransfer (m : String → ℚ) (t : ChainTransfer) : String → ℚ :=
  let afterFrom : String → ℚ :=
    fun a => if a = t.fromAddr then m t.fromAddr - t.value else m a
  fun a => if a = t.toAddr then afterFrom t.toAddr + t.value else afterFrom a

/-- The `balances` dict after the whole transfer history has been folded,
starting from the `defaultdict(float)` default of `0.0` per address. -/
def balances (transfers : List ChainTransfer) : String → ℚ :=
  transfers.foldl applyTransfer (fun _ => 0)

/-- `difference_usd = abs(our_volume_24h_usd - dex_volume_24h)`
(`historic_volume_analyzer_v4.py` line 714). -/
def difference_usd (ours dex : ℚ) : ℚ := |ours - dex|

/-- `difference_percent = (difference_usd / max(dex_volume_24h, 1)) * 100 if
dex_volume_24h > 0 else 0` (`historic_volume_analyzer_v4.py` line 715). -/
def difference_percent (ours dex : ℚ) : ℚ :=
  if 0 < dex then difference_usd ours dex / max dex 1 * 100 else 0

/-- The validation bands printed by `validate_with_dexscreener`
(`historic_volume_analyzer_v4.py` lines 736-745), one constructor per status
string. -/
inductive ValidationStatus where
  | noReferenceData
  | veryCloseMatch
  | reasonableMatch
  | someDifference
  | significantDifference
deriving DecidableEq, Repr

/-- The status cascade of `validate_with_dexscreener`: `if dex_volume_24h == 0`
then "No DexScreener data", `elif difference_percent < 10` "Very close match",
`elif < 25` "Reasonable match", `elif < 50` "Some difference", else
"Significant difference". -/
def validation_status (dex dp : ℚ) : ValidationStatus :=
  if dex = 0 then .noReferenceData
  else if dp < 10 then .veryCloseMatch
  else if dp < 25 then .reasonableMatch
  else if dp < 50 then .someDifference
  else .significantDifference

/-- The USD-pricing expression of `calculate_net_volume`
(`net_volume_analyzer.py` line 327): `net_volume_usd = net_volume_native *
current_price_usd if current_price_usd else 0.0`, where `current_price_usd` is
the `Optional[float]` returned by the price source and Python truthiness sends
both `None` and `0.0` to the `else` branch. -/
def compute_net_volume_usd (native : ℚ) (price : Option ℚ) : ℚ :=
  match price with
  | some p => if p = 0 then 0 else native * p
  | none => 0

/-- The pricing-relevant fields of the result dict built by
`calculate_net_volume` (`net_volume_analyzer.py` lines 334-341). -/
structure PeriodResult where
  net_volume_native : ℚ
  net_volume_usd : ℚ
  current_price_usd : Option ℚ
deriving DecidableEq, Repr

/-- Assembly of the pricing-relevant fields of the period result from the
native net volume and the price source's answer (`net_volume_analyzer.py`
lines 326-341). -/
def mk_period_result (native : ℚ) (price : Option ℚ) : PeriodResult :=
  { net_volume_native := native
    net_volume_usd := compute_net_volume_usd native price
    current_price_usd := price }

/-! ### Elementary facts about the net-transfer calculation -/

lemma format_amount_nonneg (token : TokenConfig) (raw : Option Nat) :
    0 ≤ token.format_amount raw := by
  cases raw with
  | none => simp [TokenConfig.format_amount]
  | some n =>
      exact div_nonneg (Nat.cast_nonneg n) (by positivity)

lemma flowDelta_eq (token : TokenConfig) (t : Transfer) (a : String) :
    flowDelta token t a =
      (if lowerAddr t.toAddr = a then token.format_amount t.value else 0) -
        (if lowerAddr t.fromAddr = a then token.format_amount t.value else 0) := by
  unfold flowDelta
  by_cases h : token.format_amount t.value = 0 <;> simp [h]

lemma flowDelta_zero (token : TokenConfig) (t : Transfer) (a : String)
    (h : token.format_amount t.value = 0) : flowDelta token t a = 0 := by
  simp [flowDelta, h]

lemma addressFlow_append (token : TokenConfig) (l₁ l₂ : List Transfer) (a : String) :
    addressFlow token (l₁ ++ l₂) a = addressFlow token l₁ a + addressFlow token l₂ a := by
  simp [addressFlow]

lemma addressFlow_perm (token : TokenConfig) {l₁ l₂ : List Transfer}
    (hp : l₁.Perm l₂) (a : String) :
    addressFlow token l₁ a = addressFlow token l₂ a :=
  (hp.map _).sum_eq

lemma trackedAddresses_cons (token : TokenConfig) (t : Transfer) (ts : List Transfer) :
    trackedAddresses token (t :: ts) =
      if token.format_amount t.value = 0 then trackedAddresses token ts
      else insert (lowerAddr t.fromAddr)
        (insert (lowerAddr t.toAddr) (trackedAddresses token ts)) := by
  unfold trackedAddresses
  by_cases h : token.format_amount t.value = 0 <;>
    simp [List.filter_cons, h]

lemma mem_trackedAddresses {token : TokenConfig} {l : List Transfer} {a : String} :
    a ∈ trackedAddresses token l ↔
      ∃ t ∈ l, token.format_amount t.value ≠ 0 ∧
        (a = lowerAddr t.fromAddr ∨ a = lowerAddr t.toAddr) := by
  induction l with
  | nil => simp [trackedAddresses]
  | cons t ts ih =>
      rw [trackedAddresses_cons]
      by_cases h : token.format_amount t.value = 0
      · simp only [if_pos h, ih]
        constructor
        · rintro ⟨u, hu, hne, hor⟩
          exact ⟨u, List.mem_cons_of_mem _ hu, hne, hor⟩
        · rintro ⟨u, hu, hne, hor⟩
          rcases List.mem_cons.mp hu with rfl | hu
          · exact absurd h hne
          · exact ⟨u, hu, hne, hor⟩
      · simp only [if_neg h, Finset.mem_insert, ih]
        constructor
        · rintro (rfl | rfl | ⟨u, hu, hne, hor⟩)
          · exact ⟨t, List.mem_cons_self t ts, h, Or.inl rfl⟩
          · exact ⟨t, List.mem_cons_self t ts, h, Or.inr rfl⟩
          · exact ⟨u, List.mem_cons_of_mem _ hu, hne, hor⟩
        · rintro ⟨u, hu, hne, hor⟩
          rcases List.mem_cons.mp hu with rfl | hu
          · rcases hor with rfl | rfl
            · exact Or.inl rfl
            · exact Or.inr (Or.inl rfl)
          · exact Or.inr (Or.inr ⟨u, hu, hne, hor⟩)

lemma trackedAddresses_perm (token : TokenConfig) {l₁ l₂ : List Transfer}
    (hp : l₁.Perm l₂) :
    trackedAddresses token l₁ = trackedAddresses token l₂ := by
  ext a
  simp only [mem_trackedAddresses]
  constructor <;> rintro ⟨t, ht, hrest⟩
  · exact ⟨t, hp.mem_iff.mp ht, hrest⟩
  · exact ⟨t, hp.mem_iff.mpr ht, hrest⟩

lemma calculate_net_transfers_eq_sum (token : TokenConfig) (l : List Transfer) :
    calculate_net_transfers token l =
      (∑ a ∈ netActiveAddresses token l, |addressFlow token l a|) / 2 := by
  unfold calculate_net_transfers
  by_cases h1 : l = []
  · subst h1
    simp [netActiveAddresses, trackedAddresses]
  · rw [if_neg h1]
    by_cases h2 : netActiveAddresses token l = ∅
    · rw [if_pos h2, h2]
      simp
    · rw [if_neg h2]

lemma calculate_net_transfers_ext (token : TokenConfig) {l₁ l₂ : List Transfer}
    (htr : trackedAddresses token l₁ = trackedAddresses token l₂)
    (hfl : ∀ a, addressFlow token l₁ a = addressFlow token l₂ a) :
    calculate_net_transfers token l₁ = calculate_net_transfers token l₂ := by
  rw [calculate_net_transfers_eq_sum, calculate_net_transfers_eq_sum]
  unfold netActiveAddresses
  rw [htr]
  rw [Finset.filter_congr (fun a _ => by rw [hfl a])]
  exact congrArg (· / 2) (Finset.sum_congr rfl (fun a _ => by rw [hfl a]))

/-! ### Inserting a zero-amount record changes nothing -/

lemma trackedAddresses_middle_zero (token : TokenConfig) (t : Transfer)
    (l₁ l₂ : List Transfer) (h0 : token.format_amount t.value = 0) :
    trackedAddresses token (l₁ ++ t :: l₂) = trackedAddresses token (l₁ ++ l₂) := by
  ext a
  simp only [mem_trackedAddresses, List.mem_append, List.mem_cons]
  constructor
  · rintro ⟨u, (hu | rfl | hu), hne, hor⟩
    · exact ⟨u, Or.inl hu, hne, hor⟩
    · exact absurd h0 hne
    · exact ⟨u, Or.inr hu, hne, hor⟩
  · rintro ⟨u, (hu | hu), hne, hor⟩
    · exact ⟨u, Or.inl hu, hne, hor⟩
    · exact ⟨u, Or.inr (Or.inr hu), hne, hor⟩

lemma addressFlow_middle_zero (token : TokenConfig) (t : Transfer)
    (l₁ l₂ : List Transfer) (h0 : token.format_amount t.value = 0) (a : String) :
    addressFlow token (l₁ ++ t :: l₂) a = addressFlow token (l₁ ++ l₂) a := by
  simp [addressFlow, flowDelta_zero token t a h0]

lemma calculate_net_transfers_middle_zero (token : TokenConfig) (t : Transfer)
    (l₁ l₂ : List Transfer) (h0 : token.format_amount t.value = 0) :
    calculate_net_transfers token (l₁ ++ t :: l₂) =
      calculate_net_transfers token (l₁ ++ l₂) :=
  calculate_net_transfers_ext token
    (trackedAddresses_middle_zero token t l₁ l₂ h0)
    (addressFlow_middle_zero token t l₁ l₂ h0)

/-! ### Grouping facts -/

lemma mem_group_transfers_by_tx {transfers : List Transfer} {h : String} {t : Transfer} :
    t ∈ group_transfers_by_tx transfers h ↔ t ∈ transfers ∧ t.hash = h := by
  simp [group_transfers_by_tx]

lemma group_transfers_by_tx_length_count (transfers : List Transfer) (h : String) :
    (group_transfers_by_tx transfers h).length =
      (transfers.map (fun t => t.hash)).count h := by
  induction transfers with
  | nil => simp [group_transfers_by_tx]
  | cons t ts ih =>
      by_cases hh : t.hash = h
      · simp [group_transfers_by_tx, List.filter_cons, hh, List.count_cons] at *
        omega
      · simp [group_transfers_by_tx, List.filter_cons, hh, List.count_cons] at *
        simpa [hh] using ih

lemma calculate_net_transfers_nil (token : TokenConfig) :
    calculate_net_transfers token [] = 0 := by
  simp [calculate_net_transfers]

lemma group_transfers_by_tx_eq_nil_of_not_mem {transfers : List Transfer} {h : String}
    (hh : h ∉ txKeys transfers) : group_transfers_by_tx transfers h = [] := by
  apply List.filter_eq_nil_iff.mpr
  intro t ht
  intro hcontra
  apply hh
  simp only [txKeys, List.mem_toFinset, List.mem_map]
  exact ⟨t, ht, by simpa using hcontra⟩

lemma group_transfers_by_tx_middle (transfers₁ transfers₂ : List Transfer)
    (t : Transfer) (h : String) :
    group_transfers_by_tx (transfers₁ ++ t :: transfers₂) h =
      if t.hash = h then
        group_transfers_by_tx transfers₁ h ++ t :: group_transfers_by_tx transfers₂ h
      else group_transfers_by_tx transfers₁ h ++ group_transfers_by_tx transfers₂ h := by
  by_cases hh : t.hash = h <;>
    simp [group_transfers_by_tx, List.filter_append, List.filter_cons, hh]

lemma txKeys_middle (transfers₁ transfers₂ : List Transfer) (t : Transfer) :
    txKeys (transfers₁ ++ t :: transfers₂) =
      insert t.hash (txKeys (transfers₁ ++ transfers₂)) := by
  simp [txKeys, List.toFinset_append, Finset.union_insert]

lemma total_net_volume_middle_zero (token : TokenConfig) (t : Transfer)
    (l₁ l₂ : List Transfer) (h0 : token.format_amount t.value = 0) :
    total_net_volume token (l₁ ++ t :: l₂) = total_net_volume token (l₁ ++ l₂) := by
  unfold total_net_volume
  rw [txKeys_middle]
  have hgroup : ∀ h : String,
      calculate_net_transfers token (group_transfers_by_tx (l₁ ++ t :: l₂) h) =
        calculate_net_transfers token (group_transfers_by_tx (l₁ ++ l₂) h) := by
    intro h
    rw [group_transfers_by_tx_middle]
    by_cases hh : t.hash = h
    · rw [if_pos hh, calculate_net_transfers_middle_zero token t _ _ h0,
        group_transfers_by_tx, group_transfers_by_tx, group_transfers_by_tx,
        ← List.filter_append]
    · rw [if_neg hh, group_transfers_by_tx, group_transfers_by_tx,
        group_transfers_by_tx, ← List.filter_append]
  by_cases hmem : t.hash ∈ txKeys (l₁ ++ l₂)
  · rw [Finset.insert_eq_self.mpr hmem]
    exact Finset.sum_congr rfl (fun h _ => hgroup h)
  · rw [Finset.sum_insert hmem, hgroup t.hash,
      group_transfers_by_tx_eq_nil_of_not_mem hmem,
      calculate_net_transfers_nil, zero_add]
    exact Finset.sum_congr rfl (fun h _ => hgroup h)

/-! ### Bounding the net volume by the raw volume -/

lemma abs_list_sum_le {α : Type} (f : α → ℚ) (l : List α) :
    |(l.map f).sum| ≤ (l.map (fun x => |f x|)).sum := by
  induction l with
  | nil => simp
  | cons x xs ih =>
      simp only [List.map_cons, List.sum_cons]
      calc |f x + (xs.map f).sum| ≤ |f x| + |(xs.map f).sum| := abs_add _ _
        _ ≤ |f x| + (xs.map (fun x => |f x|)).sum := by linarith

lemma finset_sum_list_sum_swap (S : Finset String) (l : List Transfer)
    (f : Transfer → String → ℚ) :
    ∑ a ∈ S, (l.map (fun t => f t a)).sum =
      (l.map (fun t => ∑ a ∈ S, f t a)).sum := by
  induction l with
  | nil => simp
  | cons t ts ih =>
      simp only [List.map_cons, List.sum_cons, Finset.sum_add_distrib, ih]

lemma flowDelta_abs_le (token : TokenConfig) (t : Transfer) (a : String) :
    |flowDelta token t a| ≤
      (if lowerAddr t.toAddr = a then token.format_amount t.value else 0) +
        (if lowerAddr t.fromAddr = a then token.format_amount t.value else 0) := by
  have hnn := format_amount_nonneg token t.value
  rw [flowDelta_eq]
  by_cases h1 : lowerAddr t.toAddr = a <;> by_cases h2 : lowerAddr t.fromAddr = a <;>
    simp [h1, h2, abs_of_nonneg, abs_of_nonpos, hnn]

lemma sum_abs_flowDelta_le (token : TokenConfig) (t : Transfer) (S : Finset String) :
    ∑ a ∈ S, |flowDelta token t a| ≤ 2 * token.format_amount t.value := by
  have hnn := format_amount_nonneg token t.value
  calc ∑ a ∈ S, |flowDelta token t a|
      ≤ ∑ a ∈ S,
          ((if lowerAddr t.toAddr = a then token.format_amount t.value else 0) +
            (if lowerAddr t.fromAddr = a then token.format_amount t.value else 0)) :=
        Finset.sum_le_sum (fun a _ => flowDelta_abs_le token t a)
    _ = (if lowerAddr t.toAddr ∈ S then token.format_amount t.value else 0) +
          (if lowerAddr t.fromAddr ∈ S then token.format_amount t.value else 0) := by
        rw [Finset.sum_add_distrib, Finset.sum_ite_eq, Finset.sum_ite_eq]
    _ ≤ token.format_amount t.value + token.format_amount t.value := by
        apply add_le_add <;> split <;> simp [hnn]
    _ = 2 * token.format_amount t.value := by ring

/-! ### The balance fold -/

lemma applyTransfer_apply (m : String → ℚ) (t : ChainTransfer) (a : String) :
    applyTransfer m t a =
      m a + ((if a = t.toAddr then t.value else 0) - (if a = t.fromAddr then t.value else 0)) := by
  by_cases h1 : a = t.toAddr <;> by_cases h2 : a = t.fromAddr
  · subst h1
    simp [applyTransfer, h2]
  · subst h1
    simp [applyTransfer, h2]
  · subst h2
    simp [applyTransfer, h1]
    ring
  · simp [applyTransfer, h1, h2]

lemma foldl_applyTransfer (l : List ChainTransfer) (m : String → ℚ) (a : String) :
    (l.foldl applyTransfer m) a =
      m a + (l.map (fun t => (if a = t.toAddr then t.value else 0) -
        (if a = t.fromAddr then t.value else 0))).sum := by
  induction l generalizing m with
  | nil => simp
  | cons t ts ih =>
      simp only [List.foldl_cons, List.map_cons, List.sum_cons, ih, applyTransfer_apply]
      ring

lemma balances_eq_sum (l : List ChainTransfer) (a : String) :
    balances l a = (l.map (fun t => (if a = t.toAddr then t.value else 0) -
      (if a = t.fromAddr then t.value else 0))).sum := by
  unfold balances
  rw [foldl_applyTransfer]
  simp

/-! ### Claim theorems -/

/-- C3: for every list of transfer records of one transaction and every
permutation of it, `calculate_net_transfers` returns the same net volume. -/
theorem net_transfer_order_independence (token : TokenConfig)
    {l₁ l₂ : List Transfer} (hp : l₁.Perm l₂) :
    calculate_net_transfers token l₁ = calculate_net_transfers token l₂ :=
  calculate_net_transfers_ext token (trackedAddresses_perm token hp)
    (addressFlow_perm token hp)

/-- Witness for C3 at a concrete two-record transaction and its swap. -/
theorem net_transfer_order_independence_inst :
    calculate_net_transfers ⟨18⟩
        [⟨"t1", "a", "b", some 7, 0⟩, ⟨"t1", "b", "c", some 9, 0⟩] =
      calculate_net_transfers ⟨18⟩
        [⟨"t1", "b", "c", some 9, 0⟩, ⟨"t1", "a", "b", some 7, 0⟩] :=
  net_transfer_order_independence ⟨18⟩ (List.Perm.swap _ _ _)

/-- C8: the balance fold of `analyze_holders` produces identical final
per-address balances for every permutation of the transfer history. -/
theorem balance_fold_commutes {l₁ l₂ : List ChainTransfer} (hp : l₁.Perm l₂) :
    ∀ a : String, balances l₁ a = balances l₂ a := by
  intro a
  rw [balances_eq_sum, balances_eq_sum]
  exact (hp.map _).sum_eq

/-- Witness for C8 at a concrete two-transfer history and its swap. -/
theorem balance_fold_commutes_inst :
    balances [⟨1, 10, "a", "b", 5⟩, ⟨2, 11, "b", "c", 3⟩] "b" =
      balances [⟨2, 11, "b", "c", 3⟩, ⟨1, 10, "a", "b", 5⟩] "b" :=
  balance_fold_commutes (List.Perm.swap _ _ _) "b"

/-- C10: the net volume of a transaction is at least `0` and at most the sum
of the converted display amounts of its records. -/
theorem net_volume_bounds (token : TokenConfig) (l : List Transfer) :
    0 ≤ calculate_net_transfers token l ∧
      calculate_net_transfers token l ≤
        (l.map (fun t => token.format_amount t.value)).sum := by
  rw [calculate_net_transfers_eq_sum]
  constructor
  · exact div_nonneg (Finset.sum_nonneg (fun a _ => abs_nonneg _)) (by norm_num)
  · have h1 : ∑ a ∈ netActiveAddresses token l, |addressFlow token l a| ≤
        ∑ a ∈ trackedAddresses token l, |addressFlow token l a| :=
      Finset.sum_le_sum_of_subset_of_nonneg (Finset.filter_subset _ _)
        (fun a _ _ => abs_nonneg _)
    have h2 : ∑ a ∈ trackedAddresses token l, |addressFlow token l a| ≤
        ∑ a ∈ trackedAddresses token l, (l.map (fun t => |flowDelta token t a|)).sum :=
      Finset.sum_le_sum (fun a _ => abs_list_sum_le _ l)
    have h3 : ∑ a ∈ trackedAddresses token l, (l.map (fun t => |flowDelta token t a|)).sum =
        (l.map (fun t => ∑ a ∈ trackedAddresses token l, |flowDelta token t a|)).sum :=
      finset_sum_list_sum_swap _ l _
    have h4 : (l.map (fun t => ∑ a ∈ trackedAddresses token l, |flowDelta token t a|)).sum ≤
        (l.map (fun t => 2 * token.format_amount t.value)).sum :=
      List.sum_le_sum (fun t _ => sum_abs_flowDelta_le token t _)
    have h5 : (l.map (fun t => 2 * token.format_amount t.value)).sum =
        2 * (l.map (fun t => token.format_amount t.value)).sum := by
      rw [List.sum_map_mul_left]
    linarith

/-- C4: a record whose converted amount is exactly zero contributes nothing to
its transaction: removing it changes neither the net volume, nor the
`address_flows` key set, nor the set of net-active addresses. -/
theorem zero_amount_skip (token : TokenConfig) (t : Transfer) (l₁ l₂ : List Transfer)
    (h0 : token.format_amount t.value = 0) :
    calculate_net_transfers token (l₁ ++ t :: l₂) =
        calculate_net_transfers token (l₁ ++ l₂) ∧
      trackedAddresses token (l₁ ++ t :: l₂) = trackedAddresses token (l₁ ++ l₂) ∧
      netActiveAddresses token (l₁ ++ t :: l₂) = netActiveAddresses token (l₁ ++ l₂) := by
  refine ⟨calculate_net_transfers_middle_zero token t l₁ l₂ h0,
    trackedAddresses_middle_zero token t l₁ l₂ h0, ?_⟩
  unfold netActiveAddresses
  rw [trackedAddresses_middle_zero token t l₁ l₂ h0]
  exact Finset.filter_congr (fun a _ => by rw [addressFlow_middle_zero token t l₁ l₂ h0 a])

/-- Witness for C4: a `raw_amount = "0"` record appended to a one-transfer
transaction leaves the net volume unchanged. -/
theorem zero_amount_skip_inst :
    (⟨2⟩ : TokenConfig).format_amount (some 0) = 0 ∧
      calculate_net_transfers ⟨2⟩
          [⟨"t1", "a", "b", some 500, 0⟩, ⟨"t1", "x", "y", some 0, 0⟩] =
        calculate_net_transfers ⟨2⟩ [⟨"t1", "a", "b", some 500, 0⟩] := by
  have h0 : (⟨2⟩ : TokenConfig).format_amount (some 0) = 0 := by
    norm_num [TokenConfig.format_amount]
  exact ⟨h0, (zero_amount_skip ⟨2⟩ ⟨"t1", "x", "y", some 0, 0⟩
    [⟨"t1", "a", "b", some 500, 0⟩] [] h0).1⟩

/-- C9 (amended): a record with a non-numeric amount never aborts the
analysis — `format_amount` turns it into `0.0` and the total net volume equals
that of the well-formed remainder. -/
theorem nonnumeric_amount_skipped (token : TokenConfig) (t : Transfer)
    (l₁ l₂ : List Transfer) (hval : t.value = none) :
    total_net_volume token (l₁ ++ t :: l₂) = total_net_volume token (l₁ ++ l₂) :=
  total_net_volume_middle_zero token t l₁ l₂ (by simp [TokenConfig.format_amount, hval])

/-- Witness for C9 at a concrete history containing one non-numeric record. -/
theorem nonnumeric_amount_skipped_inst :
    total_net_volume ⟨6⟩
        [⟨"t1", "a", "b", some 2000000, 0⟩, ⟨"t2", "c", "d", none, 0⟩] =
      total_net_volume ⟨6⟩ [⟨"t1", "a", "b", some 2000000, 0⟩] :=
  nonnumeric_amount_skipped ⟨6⟩ ⟨"t2", "c", "d", none, 0⟩
    [⟨"t1", "a", "b", some 2000000, 0⟩] [] rfl

/-- C6 (amended): when the price source returns `None`, `calculate_net_volume`
sets `net_volume_usd` to `0.0` (recording the unavailable price as `None` in
`current_price_usd`); the USD figure is not propagated as `None`. -/
theorem missing_price_gives_zero_usd (native : ℚ) :
    (mk_period_result native none).net_volume_usd = 0 ∧
      (mk_period_result native none).current_price_usd = none :=
  ⟨rfl, rfl⟩

/-- Counterexample for C6: with a nonzero native volume and an unavailable
price, the period result's `net_volume_usd` field is the number `0`, not an
unset/`None` marker. -/
theorem missing_price_coerced_to_zero_cex :
    (mk_period_result 5 none).current_price_usd = none ∧
      (mk_period_result 5 none).net_volume_usd = 0 :=
  ⟨rfl, rfl⟩

/-- C5 (amended): grouping is a partition — every record lands in the group
keyed by its own `tx_id`, a group only holds records bearing its key, group
sizes over the distinct keys sum to the input length (nothing is dropped or
duplicated), and every empty-`tx_id` record lands in the shared group keyed
`""`. -/
theorem grouping_partition (transfers : List Transfer) :
    (∀ t ∈ transfers, t ∈ group_transfers_by_tx transfers t.hash) ∧
      (∀ h : String, ∀ t ∈ group_transfers_by_tx transfers h, t.hash = h) ∧
      (∑ h ∈ txKeys transfers, (group_transfers_by_tx transfers h).length) =
        transfers.length ∧
      (∀ t ∈ transfers, t.hash = "" → t ∈ group_transfers_by_tx transfers "") := by
  refine ⟨?_, ?_, ?_, ?_⟩
  · intro t ht
    exact mem_group_transfers_by_tx.mpr ⟨ht, rfl⟩
  · intro h t ht
    exact (mem_group_transfers_by_tx.mp ht).2
  · calc ∑ h ∈ txKeys transfers, (group_transfers_by_tx transfers h).length
        = ∑ h ∈ txKeys transfers, (transfers.map (fun t => t.hash)).count h :=
          Finset.sum_congr rfl (fun h _ => group_transfers_by_tx_length_count transfers h)
      _ = (transfers.map (fun t => t.hash)).length := by
          have h := Multiset.toFinset_sum_count_eq
            (↑(transfers.map (fun t => t.hash)) : Multiset String)
          simp only [Multiset.coe_count, Multiset.coe_card] at h
          exact h
      _ = transfers.length := List.length_map _ _
  · intro t ht hh
    exact mem_group_transfers_by_tx.mpr ⟨ht, hh⟩

/-- Witness for C5 at a concrete two-record input with one empty hash. -/
theorem grouping_partition_inst :
    (⟨"h1", "a", "b", some 1, 0⟩ : Transfer) ∈ group_transfers_by_tx
        [⟨"h1", "a", "b", some 1, 0⟩, ⟨"", "c", "d", some 2, 0⟩] "h1" ∧
      (⟨"", "c", "d", some 2, 0⟩ : Transfer) ∈ group_transfers_by_tx
        [⟨"h1", "a", "b", some 1, 0⟩, ⟨"", "c", "d", some 2, 0⟩] "" := by
  have h := grouping_partition [⟨"h1", "a", "b", some 1, 0⟩, ⟨"", "c", "d", some 2, 0⟩]
  exact ⟨h.1 ⟨"h1", "a", "b", some 1, 0⟩ (by simp),
    h.2.2.2 ⟨"", "c", "d", some 2, 0⟩ (by simp) rfl⟩

/-- Counterexample for C5: two records with empty `tx_id` end up together in
the one group keyed `""` (a group of size 2), not in singleton groups of
their own. -/
theorem empty_txid_singleton_cex :
    (⟨"", "a", "b", some 1, 0⟩ : Transfer) ∈ group_transfers_by_tx
        [⟨"", "a", "b", some 1, 0⟩, ⟨"", "c", "d", some 2, 0⟩] "" ∧
      (⟨"", "c", "d", some 2, 0⟩ : Transfer) ∈ group_transfers_by_tx
        [⟨"", "a", "b", some 1, 0⟩, ⟨"", "c", "d", some 2, 0⟩] "" ∧
      (group_transfers_by_tx
        [⟨"", "a", "b", some 1, 0⟩, ⟨"", "c", "d", some 2, 0⟩] "").length = 2 := by
  refine ⟨?_, ?_, ?_⟩ <;> decide

/-- C7: validation against the reference 24h volume — a zero reference yields
`difference_percent = 0` and the no-reference-data band (no division is even
attempted), while a positive reference yields
`abs(ours - reference) / max(reference, 1) * 100`, classified into the
`<10` / `<25` / `<50` / else bands. -/
theorem validate_reference_bands (ours dex : ℚ) :
    (dex = 0 →
      difference_percent ours dex = 0 ∧
        validation_status dex (difference_percent ours dex) =
          ValidationStatus.noReferenceData) ∧
    (0 < dex →
      difference_percent ours dex = |ours - dex| / max dex 1 * 100 ∧
        (difference_percent ours dex < 10 →
          validation_status dex (difference_percent ours dex) =
            ValidationStatus.veryCloseMatch) ∧
        (10 ≤ difference_percent ours dex → difference_percent ours dex < 25 →
          validation_status dex (difference_percent ours dex) =
            ValidationStatus.reasonableMatch) ∧
        (25 ≤ difference_percent ours dex → difference_percent ours dex < 50 →
          validation_status dex (difference_percent ours dex) =
            ValidationStatus.someDifference) ∧
        (50 ≤ difference_percent ours dex →
          validation_status dex (difference_percent ours dex) =
            ValidationStatus.significantDifference)) := by
  constructor
  · intro h0
    constructor <;> simp [difference_percent, validation_status, h0]
  · intro hpos
    have hne : dex ≠ 0 := ne_of_gt hpos
    refine ⟨by simp [difference_percent, difference_usd, hpos], ?_, ?_, ?_, ?_⟩
    · intro h
      simp [validation_status, hne, h]
    · intro h1 h2
      simp [validation_status, hne, not_lt.mpr h1, h2]
    · intro h1 h2
      have h10 : ¬ difference_percent ours dex < 10 := not_lt.mpr (by linarith)
      have h25 : ¬ difference_percent ours dex < 25 := not_lt.mpr h1
      simp [validation_status, hne, h10, h25, h2]
    · intro h1
      have h10 : ¬ difference_percent ours dex < 10 := not_lt.mpr (by linarith)
      have h25 : ¬ difference_percent ours dex < 25 := not_lt.mpr (by linarith)
      have h50 : ¬ difference_percent ours dex < 50 := not_lt.mpr h1
      simp [validation_status, hne, h10, h25, h50]

/-- Witness for C7: a zero reference and a positive reference with a 10%
difference, classified into the expected bands. -/
theorem validate_reference_bands_inst :
    difference_percent 7 0 = 0 ∧
      validation_status 0 (difference_percent 7 0) = ValidationStatus.noReferenceData ∧
      difference_percent 110 100 = 10 ∧
      validation_status 100 (difference_percent 110 100) =
        ValidationStatus.reasonableMatch := by
  have h1 := (validate_reference_bands 7 0).1 rfl
  have h2 := (validate_reference_bands 110 100).2 (by norm_num)
  have hdp : difference_percent 110 100 = 10 := by
    rw [h2.1]
    norm_num
  exact ⟨h1.1, h1.2, hdp, h2.2.2.1 (le_of_eq hdp.symm) (by rw [hdp]; norm_num)⟩

/-- Net volume of a one-record transaction, by cases on the epsilon filter:
the shared computation behind the single-transfer identity. -/
lemma calculate_net_transfers_single (token : TokenConfig) (t : Transfer)
    (hne : lowerAddr t.fromAddr ≠ lowerAddr t.toAddr) :
    ((1 : ℚ)/1000 < token.format_amount t.value →
      calculate_net_transfers token [t] = token.format_amount t.value) ∧
    (token.format_amount t.value ≤ (1 : ℚ)/1000 →
      calculate_net_transfers token [t] = 0) := by
  have hnn : 0 ≤ token.format_amount t.value := format_amount_nonneg token t.value
  have hflow_to : addressFlow token [t] (lowerAddr t.toAddr) =
      token.format_amount t.value := by
    simp [addressFlow, flowDelta_eq, hne]
  have hflow_from : addressFlow token [t] (lowerAddr t.fromAddr) =
      -(token.format_amount t.value) := by
    simp [addressFlow, flowDelta_eq, Ne.symm hne]
  constructor
  · intro hgt
    have hne0 : ¬ token.format_amount t.value = 0 :=
      ne_of_gt (lt_trans (by norm_num) hgt)
    have htr : trackedAddresses token [t] =
        {lowerAddr t.fromAddr, lowerAddr t.toAddr} := by
      rw [trackedAddresses_cons, if_neg hne0]
      rfl
    have hplf : (1 : ℚ)/1000 < |addressFlow token [t] (lowerAddr t.fromAddr)| := by
      rw [hflow_from, abs_neg, abs_of_nonneg hnn]
      exact hgt
    have hplt : (1 : ℚ)/1000 < |addressFlow token [t] (lowerAddr t.toAddr)| := by
      rw [hflow_to, abs_of_nonneg hnn]
      exact hgt
    have hact : netActiveAddresses token [t] =
        {lowerAddr t.fromAddr, lowerAddr t.toAddr} := by
      unfold netActiveAddresses
      rw [htr, Finset.filter_insert, Finset.filter_singleton, if_pos hplt, if_pos hplf]
    rw [calculate_net_transfers_eq_sum, hact,
      Finset.sum_insert (by simp [hne]), Finset.sum_singleton,
      hflow_from, hflow_to, abs_neg, abs_of_nonneg hnn]
    ring
  · intro hle
    have hact : netActiveAddresses token [t] = ∅ := by
      unfold netActiveAddresses
      rw [Finset.filter_eq_empty_iff]
      intro a ha
      rw [mem_trackedAddresses] at ha
      obtain ⟨u, hu, hne0, hor⟩ := ha
      have hu2 : u = t := by simpa using hu
      subst hu2
      rcases hor with rfl | rfl
      · rw [hflow_from, abs_neg, abs_of_nonneg hnn]
        exact not_lt.mpr hle
      · rw [hflow_to, abs_of_nonneg hnn]
        exact not_lt.mpr hle
    rw [calculate_net_transfers_eq_sum, hact]
    simp

/-- C1 (amended): a transaction holding exactly one record with distinct
(case-canonicalized) endpoints yields net volume equal to the record's display
amount whenever that amount exceeds the `0.001` epsilon; at or below the
epsilon the flows are filtered out and the net volume is `0`. -/
theorem single_transfer_identity_eps (token : TokenConfig) (t : Transfer)
    (hne : lowerAddr t.fromAddr ≠ lowerAddr t.toAddr) :
    ((1 : ℚ)/1000 < token.format_amount t.value →
      calculate_net_transfers token [t] = token.format_amount t.value) ∧
    (token.format_amount t.value ≤ (1 : ℚ)/1000 →
      calculate_net_transfers token [t] = 0) :=
  calculate_net_transfers_single token t hne

/-- Witness for C1 at a concrete single-record transaction of display
amount `5`. -/
theorem single_transfer_identity_eps_inst :
    lowerAddr "a" ≠ lowerAddr "b" ∧
      (⟨0⟩ : TokenConfig).format_amount (some 5) = 5 ∧
      calculate_net_transfers ⟨0⟩ [⟨"t1", "a", "b", some 5, 0⟩] =
        (⟨0⟩ : TokenConfig).format_amount (some 5) := by
  have hne : lowerAddr "a" ≠ lowerAddr "b" := by decide
  have hfmt : (⟨0⟩ : TokenConfig).format_amount (some 5) = 5 := by
    norm_num [TokenConfig.format_amount]
  refine ⟨hne, hfmt, ?_⟩
  exact (single_transfer_identity_eps ⟨0⟩ ⟨"t1", "a", "b", some 5, 0⟩ hne).1
    (by rw [hfmt]; norm_num)

/-- Counterexample for C1: a single transfer whose display amount is
`0.001` — at the epsilon — yields net volume `0`, not the amount. -/
theorem single_transfer_identity_cex :
    lowerAddr "a" ≠ lowerAddr "b" ∧
      (⟨3⟩ : TokenConfig).format_amount (some 1) = 1/1000 ∧
      ((1 : ℚ)/1000 ≠ 0) ∧
      calculate_net_transfers ⟨3⟩ [⟨"t1", "a", "b", some 1, 0⟩] = 0 := by
  have hne : lowerAddr "a" ≠ lowerAddr "b" := by decide
  have hfmt : (⟨3⟩ : TokenConfig).format_amount (some 1) = 1/1000 := by
    norm_num [TokenConfig.format_amount]
  refine ⟨hne, hfmt, by norm_num, ?_⟩
  exact (calculate_net_transfers_single ⟨3⟩ ⟨"t1", "a", "b", some 1, 0⟩ hne).2
    (by rw [hfmt])

/-- C2: in a transaction A→B then B→C of 100 tokens each (18 decimals), the
net volume is 100, B's accumulated flow cancels to exactly zero, and B is not
among the transaction's net-active addresses. -/
theorem pass_through_cancellation :
    calculate_net_transfers ⟨18⟩
        [⟨"t1", "a", "b", some 100000000000000000000, 0⟩,
          ⟨"t1", "b", "c", some 100000000000000000000, 0⟩] = 100 ∧
      addressFlow ⟨18⟩
        [⟨"t1", "a", "b", some 100000000000000000000, 0⟩,
          ⟨"t1", "b", "c", some 100000000000000000000, 0⟩] "b" = 0 ∧
      "b" ∉ netActiveAddresses ⟨18⟩
        [⟨"t1", "a", "b", some 100000000000000000000, 0⟩,
          ⟨"t1", "b", "c", some 100000000000000000000, 0⟩] := by
  have hab : ("a" : String) ≠ "b" := by decide
  have hba : ("b" : String) ≠ "a" := by decide
  have hac : ("a" : String) ≠ "c" := by decide
  have hca : ("c" : String) ≠ "a" := by decide
  have hbc : ("b" : String) ≠ "c" := by decide
  have hcb : ("c" : String) ≠ "b" := by decide
  have hla : lowerAddr "a" = "a" := by decide
  have hlb : lowerAddr "b" = "b" := by decide
  have hlc : lowerAddr "c" = "c" := by decide
  refine ⟨?_, ?_, ?_⟩ <;>
    norm_num [calculate_net_transfers, netActiveAddresses, trackedAddresses,
      addressFlow, flowDelta, TokenConfig.format_amount, group_transfers_by_tx,
      List.filter_cons, hla, hlb, hlc, hab, hba, hac, hca, hbc, hcb,
      List.cons_ne_nil, Finset.filter_insert, Finset.filter_singleton,
      Finset.sum_insert, Finset.sum_singleton, Finset.insert_ne_empty,
      Finset.mem_insert, Finset.mem_singleton, Finset.mem_filter]

/-- Counterexample for C9: a record with a missing `tx_id` is not skipped —
the history holding only that record produces net volume 5, while the claim's
"well-formed remainder" (the empty history) produces 0. -/
theorem missing_txid_not_skipped_cex :
    total_net_volume ⟨0⟩ [⟨"", "a", "b", some 5, 0⟩] = 5 ∧
      total_net_volume ⟨0⟩ [] = 0 ∧
      total_net_volume ⟨0⟩ [⟨"", "a", "b", some 5, 0⟩] ≠ total_net_volume ⟨0⟩ [] := by
  have hab : ("a" : String) ≠ "b" := by decide
  have hba : ("b" : String) ≠ "a" := by decide
  have hla : lowerAddr "a" = "a" := by decide
  have hlb : lowerAddr "b" = "b" := by decide
  have h1 : total_net_volume ⟨0⟩ [⟨"", "a", "b", some 5, 0⟩] = 5 := by
    norm_num [total_net_volume, txKeys, group_transfers_by_tx, List.filter_cons,
      calculate_net_transfers, netActiveAddresses, trackedAddresses, addressFlow,
      flowDelta, TokenConfig.format_amount, hla, hlb, hab, hba,
      Finset.filter_insert, Finset.filter_singleton, Finset.sum_insert,
      Finset.sum_singleton, Finset.insert_ne_empty]
  have h2 : total_net_volume ⟨0⟩ [] = 0 := by
    simp [total_net_volume, txKeys]
  refine ⟨h1, h2, ?_⟩
  rw [h1, h2]
  norm_num

end Fxhash
